import Mathlib

/-!
Shallow embedding of the NPCSim voxel-world core (Go sources) in Lean 4,
together with proofs of the specified properties.

Embedding conventions:
- Go unsigned machine integers (uint8/uint16/uint32) are modelled as `Nat`
  with explicit `% 2^w` reductions exactly where the Go arithmetic wraps.
- Go signed `int32` values are modelled as `Int`, with an explicit `wrap32`
  applied where Go int32 arithmetic may overflow (Go int32 overflow wraps).
- Go `float64` arithmetic (the value-noise sampler) is modelled with exact
  rational arithmetic `ℚ`, following the source formulas term by term.
- The dense `[N]uint8` arrays of a chunk are modelled as total functions
  `Nat → Nat`; imperative array writes become `Function.update`, and loops
  become `List.foldl` over the same iteration ranges as the Go loops.
-/

namespace NPCSim

/-! ## internal/chunk/chunk.go : constants -/

def CW : Nat := 32
def CH : Nat := 32
def CD : Nat := 32

def shiftZ : Nat := 5
def shiftY : Nat := 10
def mask5 : Nat := 31

def N : Nat := CW * CH * CD

/-! ## internal/chunk/chunk.go : types -/

structure ChunkCoord where
  X : Int
  Y : Int
  Z : Int
deriving DecidableEq

structure PropInstance where
  Kind : Nat
  X : Nat
  Y : Nat
  Z : Nat
  Seed : Nat

/-- Chunk: authoritative storage for a 32x32x32 region. Dense `Type`/`Meta`
arrays are modelled as functions from linear index to byte value; the derived
`TopY`/`TopType` caches as functions from column index to byte value. -/
structure Chunk where
  C : ChunkCoord
  type : Nat → Nat
  meta : Nat → Nat
  topY : Nat → Nat
  topType : Nat → Nat
  topValid : Bool
  props : List PropInstance
  blockEntity : Nat → Option Nat

/-- Constructor `New`: Type/Meta are zero-initialized (air). -/
def Chunk.New (c : ChunkCoord) : Chunk :=
  { C := c
    type := fun _ => 0
    meta := fun _ => 0
    topY := fun _ => 0
    topType := fun _ => 0
    topValid := false
    props := []
    blockEntity := fun _ => none }

/-! ## internal/chunk/chunk.go : indexing -/

/-- Pack converts local (x,y,z) (0..31) to a packed position, Go:
`uint16(x) | (uint16(z) << shiftZ) | (uint16(y) << shiftY)` (uint16 wraps
modulo 2^16; the inputs are uint8 values, i.e. below 256). -/
def Pack (x y z : Nat) : Nat :=
  (x ||| (z <<< shiftZ) ||| (y <<< shiftY)) % 65536

/-- Unpack recovers the local coordinates from a packed position, Go:
`x = p & mask5; z = (p >> shiftZ) & mask5; y = (p >> shiftY) & mask5`,
returned in source order (x, y, z). -/
def Unpack (p : Nat) : Nat × Nat × Nat :=
  (p &&& mask5, (p >>> shiftY) &&& mask5, (p >>> shiftZ) &&& mask5)

/-- Idx returns the linear index into Type/Meta (Go: `int(Pack(x, y, z))`). -/
def Idx (x y z : Nat) : Nat := Pack x y z

/-- IdxFromPacked returns the linear index for a packed position (Go: `int(p)`). -/
def IdxFromPacked (p : Nat) : Nat := p

/-! ## internal/chunk/chunk.go : RebuildTopCache -/

/-- Downward scan of one (x,z) column starting at local height `y`,
returning the first (i.e. topmost) non-air entry as (topY, topType) and
(0, 0) when the whole column is air. This is the body of the inner `for
y := CH - 1; y >= 0; y--` loop of `RebuildTopCache`, including the
`found` flag collapsing to the (0,0) default. -/
def scanTop (ty : Nat → Nat) (x z : Nat) : Nat → Nat × Nat
  | 0 => if ty (Idx x 0 z) ≠ 0 then (0, ty (Idx x 0 z)) else (0, 0)
  | y + 1 => if ty (Idx x (y + 1) z) ≠ 0 then (y + 1, ty (Idx x (y + 1) z))
             else scanTop ty x z y

/-- RebuildTopCache recomputes TopY/TopType for the chunk and sets TopValid.
The Go double loop writes every column `col = x + z*CW` with `x, z < 32`
exactly once, i.e. every `col < 1024`, with `x = col % 32`, `z = col / 32`. -/
def Chunk.RebuildTopCache (c : Chunk) : Chunk :=
  { c with
    topY := fun col =>
      if col < CW * CD then (scanTop c.type (col % CW) (col / CW) (CH - 1)).1
      else c.topY col
    topType := fun col =>
      if col < CW * CD then (scanTop c.type (col % CW) (col / CW) (CH - 1)).2
      else c.topType col
    topValid := true }

/-! ## internal/chunk/access.go -/

def Chunk.GetTypeIdx (c : Chunk) (idx : Nat) : Nat := c.type idx

def Chunk.GetMetaIdx (c : Chunk) (idx : Nat) : Nat := c.meta idx

def Chunk.SetTypeIdx (c : Chunk) (idx t : Nat) : Chunk :=
  { c with type := Function.update c.type idx t, topValid := false }

def Chunk.SetMetaIdx (c : Chunk) (idx m : Nat) : Chunk :=
  { c with meta := Function.update c.meta idx m }

def Chunk.Get (c : Chunk) (p : Nat) : Nat × Nat :=
  (c.type (IdxFromPacked p), c.meta (IdxFromPacked p))

def Chunk.Set (c : Chunk) (p t m : Nat) : Chunk :=
  { c with
    type := Function.update c.type (IdxFromPacked p) t
    meta := Function.update c.meta (IdxFromPacked p) m
    topValid := false }

/-! ## internal/mathx/hash.go -/

/-- Hash32 mixes 32-bit input into a well-distributed 32-bit output
(xor-shift / multiply / xor-shift avalanche). Multiplications wrap mod 2^32. -/
def Hash32 (x : Nat) : Nat :=
  let a := x ^^^ (x >>> 16)
  let b := (a * 0x7feb352d) % 4294967296
  let c := b ^^^ (b >>> 15)
  let d := (c * 0x846ca68b) % 4294967296
  d ^^^ (d >>> 16)

/-- Conversion `uint32(v)` of a Go int32 value: two's-complement bit pattern
as an unsigned number. -/
def toU32 (v : Int) : Nat := (v % 4294967296).toNat

/-- Hash3 returns a stable hash for 3D integer coordinates + seed. -/
def Hash3 (seed : Nat) (x y z : Int) : Nat :=
  let h := seed
  let h := h ^^^ ((toU32 x * 0x9e3779b1) % 4294967296)
  let h := h ^^^ ((toU32 y * 0x85ebca6b) % 4294967296)
  let h := h ^^^ ((toU32 z * 0xc2b2ae35) % 4294967296)
  Hash32 h

/-- Hash2 returns a stable hash for 2D integer coordinates + seed. -/
def Hash2 (seed : Nat) (x z : Int) : Nat :=
  let h := seed
  let h := h ^^^ ((toU32 x * 0x9e3779b1) % 4294967296)
  let h := h ^^^ ((toU32 z * 0x85ebca6b) % 4294967296)
  Hash32 h

/-! ## internal/gen/noise.go (float64 modelled as exact rationals) -/

/-- Map uint32 to [0,1] using the 24 most significant bits, Go:
`float64(h>>8) / float64(1<<24)` (both operands are exactly representable;
the division is modelled exactly in ℚ). -/
def hash01 (seed : Nat) (x z : Int) : ℚ :=
  ((Hash2 seed x z >>> 8 : Nat) : ℚ) / (16777216 : ℚ)

def lerp (a b t : ℚ) : ℚ := a + (b - a) * t

/-- Perlin fade 6t^5 - 15t^4 + 10t^3, written as in the source:
`t * t * t * (t*(t*6-15) + 10)`. -/
def fade (t : ℚ) : ℚ := t * t * t * (t * (t * 6 - 15) + 10)

/-- Value noise at integer world coords. Go `/` on int32 truncates toward
zero, which is `Int.div` in Lean (not `Int.ediv`). -/
def noise2D (wx wz : Int) (seed : Nat) (cell : Int) : ℚ :=
  let x0 := (Int.tdiv wx cell) * cell
  let z0 := (Int.tdiv wz cell) * cell
  let x1 := x0 + cell
  let z1 := z0 + cell
  let fx : ℚ := ((wx - x0 : Int) : ℚ) / ((cell : Int) : ℚ)
  let fz : ℚ := ((wz - z0 : Int) : ℚ) / ((cell : Int) : ℚ)
  let u := fade fx
  let v := fade fz
  let v00 := hash01 seed x0 z0
  let v10 := hash01 seed x1 z0
  let v01 := hash01 seed x0 z1
  let v11 := hash01 seed x1 z1
  let a := lerp v00 v10 u
  let b := lerp v01 v11 u
  lerp a b v

/-! ## internal/gen/pipeline.go -/

def BlockAir : Nat := 0
def BlockGrass : Nat := 1
def BlockDirt : Nat := 2
def BlockStone : Nat := 3
def BlockWater : Nat := 4

/-- Global Y level where water fills up to. -/
def seaLevel : Int := 12

structure Context where
  Seed : Nat

/-- Reduction of an unbounded `Int` to the int32 value with the same low 32
bits (two's complement); Go int32 arithmetic wraps this way on overflow. -/
def wrap32 (v : Int) : Int := (v + 2147483648) % 4294967296 - 2147483648

/-- Conversion `uint8(v)` of a Go int32 value: low 8 bits of the pattern. -/
def toU8 (v : Int) : Nat := (v % 256).toNat

def clampI32 (v lo hi : Int) : Int :=
  if v < lo then lo
  else if v > hi then hi
  else v

/-- Rounding of `math.Round`: half away from zero. -/
def roundHalfAway (q : ℚ) : Int :=
  if q < 0 then -(Int.floor (-q + 1 / 2)) else Int.floor (q + 1 / 2)

/-- Local `n` of `terrainHeight`: three octaves of value noise with distinct
seed perturbations, weighted 0.55/0.30/0.15. -/
def terrainNoise (wx wz : Int) (seed : Nat) : ℚ :=
  let n0 := noise2D wx wz seed 32
  let n1 := noise2D wx wz (seed ^^^ 0xA53A) 16
  let n2 := noise2D wx wz (seed ^^^ 0xC3E1) 8
  n0 * (55 / 100) + n1 * (30 / 100) + n2 * (15 / 100)

/-- terrainHeight returns a global Y height for the column at (wx,wz),
mapped through `int32(math.Round(6 + n*20))` and clamped to [1, 30]. -/
def terrainHeight (wx wz : Int) (seed : Nat) : Int :=
  clampI32 (roundHalfAway (6 + terrainNoise wx wz seed * 20)) 1 30

/-- Body of the terrain-fill `y` loop of `GenerateChunk` for one voxel:
air above the height, otherwise stratification by `depth := h - gy`
(grass at depth 0, dirt at depth <= 3, stone below). -/
def terrainBody (h gy : Int) : Nat :=
  if gy > h then BlockAir
  else
    let depth := wrap32 (h - gy)
    if depth = 0 then BlockGrass
    else if depth ≤ 3 then BlockDirt
    else BlockStone

/-- Iteration range of the water loop `for gy := h + 1; gy <= seaLevel; gy++`
(empty when `h >= seaLevel`). -/
def waterRange (h : Int) : List Int :=
  (List.range (seaLevel - h).toNat).map (fun (k : Nat) => h + 1 + (k : Int))

/-- Pass 1 of `GenerateChunk` for one (x,z) column: the terrain `y` loop
writing `Type[Idx(x,y,z)]` for every local y, with `gy := baseY + int32(y)`. -/
def terrainFold (h baseY : Int) (x z : Nat) (ty : Nat → Nat) : Nat → Nat :=
  (List.range CH).foldl
    (fun f y => Function.update f (Idx x y z) (terrainBody h (wrap32 (baseY + y)))) ty

/-- Pass 2 of `GenerateChunk` for one (x,z) column: for columns below sea
level, the water loop overwrites the in-chunk part of the `[h+1, seaLevel]`
band (`continue` on global heights outside `[baseY, baseY+CH)`), writing at
`Idx(x, uint8(gy-baseY), z)`. All int32 arithmetic uses `wrap32`. -/
def waterFold (h baseY : Int) (x z : Nat) (ty : Nat → Nat) : Nat → Nat :=
  if h < seaLevel then
    (waterRange h).foldl
      (fun f gy =>
        if gy < baseY ∨ wrap32 (baseY + (CH : Int)) ≤ gy then f
        else Function.update f (Idx x (toU8 (wrap32 (gy - baseY))) z) BlockWater)
      ty
  else ty

/-- Passes 1 and 2 of `GenerateChunk` for one (x,z) column, with the column
height `h := terrainHeight(wx, wz, seed)` and `baseY := int32(coord.Y)*CH`
computed as in the source. -/
def fillColumn (seed : Nat) (coord : ChunkCoord) (x z : Nat) (ty : Nat → Nat) :
    Nat → Nat :=
  waterFold
    (terrainHeight (wrap32 (coord.X * (CW : Int) + x))
      (wrap32 (coord.Z * (CD : Int) + z)) seed)
    (wrap32 (coord.Y * (CH : Int))) x z
    (terrainFold
      (terrainHeight (wrap32 (coord.X * (CW : Int) + x))
        (wrap32 (coord.Z * (CD : Int) + z)) seed)
      (wrap32 (coord.Y * (CH : Int))) x z ty)

/-- GenerateChunk: fresh chunk, z-outer / x-inner column loops running the
terrain and water passes, then a final RebuildTopCache. -/
def GenerateChunk (coord : ChunkCoord) (ctx : Context) : Chunk :=
  let ch := Chunk.New coord
  let ty := (List.range CD).foldl
    (fun f z => (List.range CW).foldl (fun g x => fillColumn ctx.Seed coord x z g) f)
    ch.type
  Chunk.RebuildTopCache { ch with type := ty }

/-! ## cmd/server/main.go : surface snapshot -/

/-- Surface snapshot built by the /api/chunk handler, Go:
`buf := make([]byte, chunk.CW*chunk.CD*2); copy(buf[:1024], c.TopY[:]);
copy(buf[1024:], c.TopType[:])`. -/
def surfaceSnapshot (c : Chunk) : List Nat :=
  ((List.range (CW * CD)).map c.topY) ++ ((List.range (CW * CD)).map c.topType)

/-! ## internal/world/world.go : concurrent store

`World.GetOrCreateChunk` is modelled as a transition system. The RWMutex
serializes all map operations, so each lock-protected region is one atomic
action: `fastRead c` is the RLock lookup (lines 33-35; on a hit the call
returns that chunk, lines 36-44), and `lockedGetOrInsert c` is the whole
Lock section (lines 47-53: re-check, generate on miss, insert, return).
A trace is an arbitrary interleaving of such actions from any number of
concurrent callers. Chunk instances are identified by an allocation id
(`nextId`) so that two separately generated chunks are distinguishable
even though generation is deterministic; running the generation pipeline
corresponds exactly to the id-allocating branch. -/

inductive WAction where
  | fastRead : ChunkCoord → WAction
  | lockedGetOrInsert : ChunkCoord → WAction
deriving DecidableEq

structure WState where
  store : ChunkCoord → Option Nat
  nextId : Nat

def initWState : WState := { store := fun _ => none, nextId := 0 }

def stepW (σ : WState) (a : WAction) : WState :=
  match a with
  | .fastRead _ => σ
  | .lockedGetOrInsert c =>
    match σ.store c with
    | some _ => σ
    | none =>
      { store := fun d => if d = c then some σ.nextId else σ.store d
        nextId := σ.nextId + 1 }

def runW (σ : WState) : List WAction → WState
  | [] => σ
  | a :: rest => runW (stepW σ a) rest

def coordOf : WAction → ChunkCoord
  | .fastRead c => c
  | .lockedGetOrInsert c => c

/-- Value handed back to the caller by one atomic action: the RLock lookup
returns the current map entry; the Lock section returns the map entry after
its own re-check/insert (always present). -/
def observeW (σ : WState) (a : WAction) : Option Nat :=
  match a with
  | .fastRead c => σ.store c
  | .lockedGetOrInsert c => (stepW σ a).store c

/-- Per-action results of a whole trace, as (coordinate, returned id) pairs. -/
def resultsFrom (σ : WState) : List WAction → List (ChunkCoord × Option Nat)
  | [] => []
  | a :: rest => (coordOf a, observeW σ a) :: resultsFrom (stepW σ a) rest

/-- Number of times the generation pipeline runs for coordinate `c` along a
trace: `lockedGetOrInsert c` generates exactly when the re-check still
misses. -/
def genCountFrom (σ : WState) (c : ChunkCoord) : List WAction → Nat
  | [] => 0
  | a :: rest =>
    (if a = .lockedGetOrInsert c ∧ σ.store c = none then 1 else 0) +
      genCountFrom (stepW σ a) c rest

/-! ## Indexing lemmas -/

/-- Closed arithmetic form of `Pack` on in-range local coordinates: the
bit fields are disjoint, so the ors are sums. -/
lemma pack_eq (x y z : Nat) (hx : x < 32) (hy : y < 32) (hz : z < 32) :
    Pack x y z = x + 32 * z + 1024 * y := by
  have h1 : (2 : Nat) ^ 5 * z + x = 2 ^ 5 * z ||| x :=
    Nat.mul_add_lt_is_or (by omega) z
  have h2 : (2 : Nat) ^ 10 * y + (x + 32 * z) = 2 ^ 10 * y ||| (x + 32 * z) :=
    Nat.mul_add_lt_is_or (by omega) y
  have hx32 : x ||| (z <<< shiftZ) = x + 32 * z := by
    rw [show shiftZ = 5 from rfl, Nat.shiftLeft_eq, Nat.lor_comm,
      show z * 2 ^ 5 = 2 ^ 5 * z by ring, ← h1]
    omega
  have hy32 : (x + 32 * z) ||| (y <<< shiftY) = x + 32 * z + 1024 * y := by
    rw [show shiftY = 10 from rfl, Nat.shiftLeft_eq, Nat.lor_comm,
      show y * 2 ^ 10 = 2 ^ 10 * y by ring, ← h2]
    omega
  unfold Pack
  rw [hx32, hy32]
  exact Nat.mod_eq_of_lt (by omega)

lemma idx_eq (x y z : Nat) (hx : x < 32) (hy : y < 32) (hz : z < 32) :
    Idx x y z = x + 32 * z + 1024 * y := pack_eq x y z hx hy hz

lemma idx_ne (x y z x2 y2 z2 : Nat) (hx : x < 32) (hy : y < 32) (hz : z < 32)
    (hx2 : x2 < 32) (hy2 : y2 < 32) (hz2 : z2 < 32)
    (hne : x2 ≠ x ∨ y2 ≠ y ∨ z2 ≠ z) :
    Idx x2 y2 z2 ≠ Idx x y z := by
  rw [idx_eq x y z hx hy hz, idx_eq x2 y2 z2 hx2 hy2 hz2]
  omega

/-- C2: for every local coordinate triple (x,y,z) with each component in
[0,32), Unpack(Pack(x,y,z)) == (x,y,z), and Pack(x,y,z) equals Idx(x,y,z)
as an integer. -/
theorem pack_unpack_inverse (x : Nat) (hx : x < 32) (y : Nat) (hy : y < 32)
    (z : Nat) (hz : z < 32) :
    Unpack (Pack x y z) = (x, y, z) ∧ Pack x y z = Idx x y z := by
  refine ⟨?_, rfl⟩
  rw [pack_eq x y z hx hy hz]
  unfold Unpack
  rw [show mask5 = 2 ^ 5 - 1 from rfl, show shiftY = 10 from rfl,
    show shiftZ = 5 from rfl, Nat.shiftRight_eq_div_pow, Nat.shiftRight_eq_div_pow,
    Nat.and_pow_two_sub_one_eq_mod, Nat.and_pow_two_sub_one_eq_mod,
    Nat.and_pow_two_sub_one_eq_mod]
  have e1 : (x + 32 * z + 1024 * y) % 2 ^ 5 = x := by omega
  have e2 : (x + 32 * z + 1024 * y) / 2 ^ 10 % 2 ^ 5 = y := by omega
  have e3 : (x + 32 * z + 1024 * y) / 2 ^ 5 % 2 ^ 5 = z := by omega
  rw [e1, e2, e3]

theorem pack_unpack_inverse_witness :
    Unpack (Pack 3 7 5) = (3, 7, 5) ∧ Pack 3 7 5 = Idx 3 7 5 :=
  pack_unpack_inverse 3 (by norm_num) 7 (by norm_num) 5 (by norm_num)

/-- C10: Pack on in-range local coordinates always lands below N = 32768, so
a packed position below N indexes the dense arrays in bounds via
IdxFromPacked, while any packed value in the upper half of the 16-bit space
(N <= p < 65536) yields an index at or past the end of the N-element
arrays. -/
theorem packed_access_bounds (x : Nat) (hx : x < 32) (y : Nat) (hy : y < 32)
    (z : Nat) (hz : z < 32) (p : Nat) (hp : p < 65536) :
    Pack x y z < N ∧ (p < N → IdxFromPacked p < N) ∧
      (N ≤ p → N ≤ IdxFromPacked p) := by
  refine ⟨?_, fun h => h, fun h => h⟩
  rw [pack_eq x y z hx hy hz]
  show x + 32 * z + 1024 * y < 32 * 32 * 32
  omega

theorem packed_access_bounds_witness :
    Pack 1 2 3 < N ∧ (40000 < N → IdxFromPacked 40000 < N) ∧
      (N ≤ 40000 → N ≤ IdxFromPacked 40000) :=
  packed_access_bounds 1 (by norm_num) 2 (by norm_num) 3 (by norm_num)
    40000 (by norm_num)

/-! ## Set/Get lemmas -/

/-- C7: after Set(p, t, m) the entry Type[p] equals t, Meta[p] equals m, the
derived-cache flag TopValid is false unconditionally, and all other Type and
Meta entries are unchanged. -/
theorem set_postcondition (c : Chunk) (p t m : Nat) (hp : p < 32768) :
    (c.Set p t m).type p = t ∧ (c.Set p t m).meta p = m ∧
    (c.Set p t m).topValid = false ∧
    ∀ q, q ≠ p → (c.Set p t m).type q = c.type q ∧ (c.Set p t m).meta q = c.meta q := by
  refine ⟨?_, ?_, rfl, ?_⟩
  · exact Function.update_same p t c.type
  · exact Function.update_same p m c.meta
  · intro q hq
    show Function.update c.type (IdxFromPacked p) t q = c.type q ∧
      Function.update c.meta (IdxFromPacked p) m q = c.meta q
    rw [show IdxFromPacked p = p from rfl]
    exact ⟨Function.update_noteq hq t c.type, Function.update_noteq hq m c.meta⟩

theorem set_postcondition_witness :
    ((Chunk.New ⟨0, 0, 0⟩).Set 5 7 9).type 5 = 7 ∧
    ((Chunk.New ⟨0, 0, 0⟩).Set 5 7 9).meta 5 = 9 ∧
    ((Chunk.New ⟨0, 0, 0⟩).Set 5 7 9).topValid = false ∧
    ∀ q, q ≠ 5 → ((Chunk.New ⟨0, 0, 0⟩).Set 5 7 9).type q = (Chunk.New ⟨0, 0, 0⟩).type q ∧
      ((Chunk.New ⟨0, 0, 0⟩).Set 5 7 9).meta q = (Chunk.New ⟨0, 0, 0⟩).meta q :=
  set_postcondition (Chunk.New ⟨0, 0, 0⟩) 5 7 9 (by norm_num)

/-! ## RebuildTopCache lemmas -/

/-- Characterization of the downward column scan: either the whole column up
to height Y is air and the scan reports (0,0), or the scan reports the
greatest non-air height not above Y together with its type. -/
lemma scanTop_char (ty : Nat → Nat) (x z : Nat) (Y : Nat) :
    (scanTop ty x z Y = (0, 0) ∧ ∀ y, y ≤ Y → ty (Idx x y z) = 0) ∨
    ((scanTop ty x z Y).1 ≤ Y ∧ ty (Idx x (scanTop ty x z Y).1 z) ≠ 0 ∧
      (scanTop ty x z Y).2 = ty (Idx x (scanTop ty x z Y).1 z) ∧
      ∀ y, y ≤ Y → ty (Idx x y z) ≠ 0 → y ≤ (scanTop ty x z Y).1) := by
  induction Y with
  | zero =>
    by_cases h : ty (Idx x 0 z) = 0
    · left
      refine ⟨by simp [scanTop, h], fun y hy => ?_⟩
      rw [Nat.le_zero.mp hy]
      exact h
    · right
      have hs : scanTop ty x z 0 = (0, ty (Idx x 0 z)) := by simp [scanTop, h]
      rw [hs]
      exact ⟨Nat.le_refl 0, h, rfl, fun y hy _ => hy⟩
  | succ Y ih =>
    by_cases h : ty (Idx x (Y + 1) z) = 0
    · have hs : scanTop ty x z (Y + 1) = scanTop ty x z Y := by simp [scanTop, h]
      rcases ih with ⟨h1, h2⟩ | ⟨h1, h2, h3, h4⟩
      · left
        refine ⟨hs.trans h1, fun y hy => ?_⟩
        rcases Nat.lt_or_ge y (Y + 1) with hlt | hge
        · exact h2 y (Nat.lt_succ_iff.mp hlt)
        · have hy1 : y = Y + 1 := by omega
          rw [hy1]; exact h
      · right
        rw [hs]
        refine ⟨Nat.le_succ_of_le h1, h2, h3, fun y hy hne => ?_⟩
        rcases Nat.lt_or_ge y (Y + 1) with hlt | hge
        · exact h4 y (Nat.lt_succ_iff.mp hlt) hne
        · exfalso
          have hy1 : y = Y + 1 := by omega
          rw [hy1] at hne; exact hne h
    · right
      have hs : scanTop ty x z (Y + 1) = (Y + 1, ty (Idx x (Y + 1) z)) := by
        simp [scanTop, h]
      rw [hs]
      exact ⟨Nat.le_refl _, h, rfl, fun y hy _ => hy⟩

/-- C6: after RebuildTopCache, for every column (x,z), TopY[x + 32 z] is the
greatest local height with a non-air type and TopType is the type found
there, or both are 0 for an all-air column; TopValid is set and the dense
arrays are unchanged. -/
theorem rebuildTopCache_postcondition (c : Chunk) (x z : Nat)
    (hx : x < 32) (hz : z < 32) :
    ((∃ y, y < 32 ∧ c.type (Idx x y z) ≠ 0) →
      ((c.RebuildTopCache).topY (x + 32 * z) < 32 ∧
        c.type (Idx x ((c.RebuildTopCache).topY (x + 32 * z)) z) ≠ 0 ∧
        (∀ y, y < 32 → c.type (Idx x y z) ≠ 0 →
          y ≤ (c.RebuildTopCache).topY (x + 32 * z)) ∧
        (c.RebuildTopCache).topType (x + 32 * z) =
          c.type (Idx x ((c.RebuildTopCache).topY (x + 32 * z)) z))) ∧
    ((∀ y, y < 32 → c.type (Idx x y z) = 0) →
      (c.RebuildTopCache).topY (x + 32 * z) = 0 ∧
        (c.RebuildTopCache).topType (x + 32 * z) = 0) ∧
    (c.RebuildTopCache).topValid = true ∧
    (c.RebuildTopCache).type = c.type ∧ (c.RebuildTopCache).meta = c.meta := by
  have hcol : x + 32 * z < CW * CD := by show x + 32 * z < 32 * 32; omega
  have hmod : (x + 32 * z) % CW = x := by show (x + 32 * z) % 32 = x; omega
  have hdiv : (x + 32 * z) / CW = z := by show (x + 32 * z) / 32 = z; omega
  have hY : (c.RebuildTopCache).topY (x + 32 * z) = (scanTop c.type x z 31).1 := by
    show (if x + 32 * z < CW * CD
      then (scanTop c.type ((x + 32 * z) % CW) ((x + 32 * z) / CW) (CH - 1)).1
      else c.topY (x + 32 * z)) = (scanTop c.type x z 31).1
    rw [if_pos hcol, hmod, hdiv]
    rfl
  have hT : (c.RebuildTopCache).topType (x + 32 * z) = (scanTop c.type x z 31).2 := by
    show (if x + 32 * z < CW * CD
      then (scanTop c.type ((x + 32 * z) % CW) ((x + 32 * z) / CW) (CH - 1)).2
      else c.topType (x + 32 * z)) = (scanTop c.type x z 31).2
    rw [if_pos hcol, hmod, hdiv]
    rfl
  rcases scanTop_char c.type x z 31 with ⟨h1, h2⟩ | ⟨h1, h2, h3, h4⟩
  · refine ⟨?_, ?_, rfl, rfl, rfl⟩
    · rintro ⟨y, hy, hne⟩
      exact absurd (h2 y (by omega)) hne
    · intro _
      rw [hY, hT, h1]
      exact ⟨rfl, rfl⟩
  · refine ⟨?_, ?_, rfl, rfl, rfl⟩
    · intro _
      rw [hY, hT]
      exact ⟨by omega, h2, fun y hy hne => h4 y (by omega) hne, h3⟩
    · intro hall
      exact absurd (hall _ (by omega)) h2

theorem rebuildTopCache_postcondition_witness :
    ((∃ y, y < 32 ∧ (Chunk.New ⟨0, 0, 0⟩).type (Idx 0 y 0) ≠ 0) →
      (((Chunk.New ⟨0, 0, 0⟩).RebuildTopCache).topY (0 + 32 * 0) < 32 ∧
        (Chunk.New ⟨0, 0, 0⟩).type
          (Idx 0 (((Chunk.New ⟨0, 0, 0⟩).RebuildTopCache).topY (0 + 32 * 0)) 0) ≠ 0 ∧
        (∀ y, y < 32 → (Chunk.New ⟨0, 0, 0⟩).type (Idx 0 y 0) ≠ 0 →
          y ≤ ((Chunk.New ⟨0, 0, 0⟩).RebuildTopCache).topY (0 + 32 * 0)) ∧
        ((Chunk.New ⟨0, 0, 0⟩).RebuildTopCache).topType (0 + 32 * 0) =
          (Chunk.New ⟨0, 0, 0⟩).type
            (Idx 0 (((Chunk.New ⟨0, 0, 0⟩).RebuildTopCache).topY (0 + 32 * 0)) 0))) ∧
    ((∀ y, y < 32 → (Chunk.New ⟨0, 0, 0⟩).type (Idx 0 y 0) = 0) →
      ((Chunk.New ⟨0, 0, 0⟩).RebuildTopCache).topY (0 + 32 * 0) = 0 ∧
        ((Chunk.New ⟨0, 0, 0⟩).RebuildTopCache).topType (0 + 32 * 0) = 0) ∧
    ((Chunk.New ⟨0, 0, 0⟩).RebuildTopCache).topValid = true ∧
    ((Chunk.New ⟨0, 0, 0⟩).RebuildTopCache).type = (Chunk.New ⟨0, 0, 0⟩).type ∧
    ((Chunk.New ⟨0, 0, 0⟩).RebuildTopCache).meta = (Chunk.New ⟨0, 0, 0⟩).meta :=
  rebuildTopCache_postcondition (Chunk.New ⟨0, 0, 0⟩) 0 0 (by norm_num) (by norm_num)

/-! ## Surface snapshot lemmas -/

/-- C9: the surface snapshot is exactly 2048 bytes; byte x + 32 z is the
TopY cache entry of column (x,z) and byte 1024 + x + 32 z is its TopType
entry. -/
theorem surfaceSnapshot_format (c : Chunk) (x z : Nat) (hx : x < 32) (hz : z < 32) :
    (surfaceSnapshot c).length = 2048 ∧
    (surfaceSnapshot c)[x + 32 * z]? = some (c.topY (x + 32 * z)) ∧
    (surfaceSnapshot c)[1024 + (x + 32 * z)]? = some (c.topType (x + 32 * z)) := by
  refine ⟨?_, ?_, ?_⟩
  · unfold surfaceSnapshot
    rw [List.length_append, List.length_map, List.length_map, List.length_range]
    rfl
  · unfold surfaceSnapshot
    rw [List.getElem?_append_left
      (by rw [List.length_map, List.length_range]; show x + 32 * z < 1024; omega)]
    rw [List.getElem?_map, List.getElem?_range (by show x + 32 * z < 1024; omega)]
    rfl
  · unfold surfaceSnapshot
    rw [List.getElem?_append_right
      (by rw [List.length_map, List.length_range]; show 1024 ≤ 1024 + (x + 32 * z); omega)]
    rw [List.length_map, List.length_range, List.getElem?_map,
      show 1024 + (x + 32 * z) - CW * CD = x + 32 * z from by
        show 1024 + (x + 32 * z) - 1024 = x + 32 * z; omega,
      List.getElem?_range (by show x + 32 * z < 1024; omega)]
    rfl

theorem surfaceSnapshot_format_witness :
    (surfaceSnapshot (Chunk.New ⟨0, 0, 0⟩)).length = 2048 ∧
    (surfaceSnapshot (Chunk.New ⟨0, 0, 0⟩))[3 + 32 * 4]? =
      some ((Chunk.New ⟨0, 0, 0⟩).topY (3 + 32 * 4)) ∧
    (surfaceSnapshot (Chunk.New ⟨0, 0, 0⟩))[1024 + (3 + 32 * 4)]? =
      some ((Chunk.New ⟨0, 0, 0⟩).topType (3 + 32 * 4)) :=
  surfaceSnapshot_format (Chunk.New ⟨0, 0, 0⟩) 3 4 (by norm_num) (by norm_num)

/-! ## Determinism of generation -/

/-- C1: GenerateChunk is a pure function of the chunk coordinate and the
seed carried by the Context; two calls with equal seeds produce identical
Type and Meta arrays, with no other inputs (no globals, clocks or RNG state
appear in the embedding because none appear in the source). -/
theorem generateChunk_deterministic (c : ChunkCoord) (ctx1 ctx2 : Context)
    (hseed : ctx1.Seed = ctx2.Seed) :
    (GenerateChunk c ctx1).type = (GenerateChunk c ctx2).type ∧
    (GenerateChunk c ctx1).meta = (GenerateChunk c ctx2).meta := by
  cases ctx1
  cases ctx2
  cases hseed
  exact ⟨rfl, rfl⟩

theorem generateChunk_deterministic_witness :
    (GenerateChunk ⟨0, 0, 0⟩ ⟨1337⟩).type = (GenerateChunk ⟨0, 0, 0⟩ ⟨1337⟩).type ∧
    (GenerateChunk ⟨0, 0, 0⟩ ⟨1337⟩).meta = (GenerateChunk ⟨0, 0, 0⟩ ⟨1337⟩).meta :=
  generateChunk_deterministic ⟨0, 0, 0⟩ ⟨1337⟩ ⟨1337⟩ rfl

/-! ## World store lemmas -/

/-- Every atomic action preserves an already-inserted entry: the map is only
ever written by the double-checked insert, which refuses to overwrite. -/
lemma stepW_preserves_some (σ : WState) (a : WAction) (c : ChunkCoord) (v : Nat)
    (h : σ.store c = some v) : (stepW σ a).store c = some v := by
  cases a with
  | fastRead d => exact h
  | lockedGetOrInsert d =>
    show (match σ.store d with
      | some _ => σ
      | none =>
        { store := fun e => if e = d then some σ.nextId else σ.store e
          nextId := σ.nextId + 1 } : WState).store c = some v
    cases hd : σ.store d with
    | some w => exact h
    | none =>
      show (if c = d then some σ.nextId else σ.store c) = some v
      by_cases hcd : c = d
      · rw [hcd] at h
        rw [h] at hd
        exact absurd hd (by simp)
      · rw [if_neg hcd]
        exact h

lemma runW_preserves_some (tr : List WAction) (σ : WState) (c : ChunkCoord)
    (v : Nat) (h : σ.store c = some v) : (runW σ tr).store c = some v := by
  induction tr generalizing σ with
  | nil => exact h
  | cons a rest ih => exact ih (stepW σ a) (stepW_preserves_some σ a c v h)

/-- A value returned by any call in the trace is the map entry for its
coordinate in the final state (entries are never overwritten). -/
lemma resultsFrom_final (tr : List WAction) (σ : WState) (c : ChunkCoord)
    (v : Nat) (h : (c, some v) ∈ resultsFrom σ tr) :
    (runW σ tr).store c = some v := by
  induction tr generalizing σ with
  | nil => cases h
  | cons a rest ih =>
    rcases List.mem_cons.mp h with hhead | htail
    · have hc : coordOf a = c := (congrArg Prod.fst hhead).symm
      have hv : observeW σ a = some v := (congrArg Prod.snd hhead).symm
      show (runW (stepW σ a) rest).store c = some v
      refine runW_preserves_some rest (stepW σ a) c v ?_
      cases a with
      | fastRead d =>
        rw [← hc]
        exact hv
      | lockedGetOrInsert d =>
        rw [← hc]
        exact hv
    · exact ih (stepW σ a) htail

lemma genCountFrom_zero_of_some (tr : List WAction) (σ : WState)
    (c : ChunkCoord) (v : Nat) (h : σ.store c = some v) :
    genCountFrom σ c tr = 0 := by
  induction tr generalizing σ with
  | nil => rfl
  | cons a rest ih =>
    show (if a = .lockedGetOrInsert c ∧ σ.store c = none then 1 else 0) +
        genCountFrom (stepW σ a) c rest = 0
    rw [if_neg (by rw [h]; rintro ⟨-, h2⟩; cases h2)]
    rw [ih (stepW σ a) (stepW_preserves_some σ a c v h)]

lemma genCountFrom_le_one (tr : List WAction) (σ : WState) (c : ChunkCoord) :
    genCountFrom σ c tr ≤ 1 := by
  induction tr generalizing σ with
  | nil => exact Nat.zero_le 1
  | cons a rest ih =>
    show (if a = .lockedGetOrInsert c ∧ σ.store c = none then 1 else 0) +
        genCountFrom (stepW σ a) c rest ≤ 1
    by_cases hA : a = .lockedGetOrInsert c ∧ σ.store c = none
    · rw [if_pos hA]
      have hsome : (stepW σ a).store c = some σ.nextId := by
        obtain ⟨ha, hn⟩ := hA
        rw [ha]
        show (match σ.store c with
          | some _ => σ
          | none =>
            { store := fun e => if e = c then some σ.nextId else σ.store e
              nextId := σ.nextId + 1 } : WState).store c = some σ.nextId
        rw [hn]
        show (if c = c then some σ.nextId else σ.store c) = some σ.nextId
        rw [if_pos rfl]
      rw [genCountFrom_zero_of_some rest (stepW σ a) c σ.nextId hsome]
    · rw [if_neg hA]
      rw [Nat.zero_add]
      exact ih (stepW σ a)

/-- C3: along any interleaving of GetOrCreateChunk atomic actions, any two
values returned for the same coordinate are the same chunk instance, and
the generation pipeline runs at most once for that coordinate. -/
theorem getOrCreateChunk_single_generation (tr : List WAction) (c : ChunkCoord)
    (v w : Nat) (hv : (c, some v) ∈ resultsFrom initWState tr)
    (hw : (c, some w) ∈ resultsFrom initWState tr) :
    v = w ∧ genCountFrom initWState c tr ≤ 1 := by
  have h1 := resultsFrom_final tr initWState c v hv
  have h2 := resultsFrom_final tr initWState c w hw
  rw [h1] at h2
  exact ⟨Option.some.inj h2, genCountFrom_le_one tr initWState c⟩

theorem getOrCreateChunk_single_generation_witness :
    ((⟨0, 0, 0⟩ : ChunkCoord), some 0) ∈
      resultsFrom initWState
        [WAction.lockedGetOrInsert ⟨0, 0, 0⟩, WAction.fastRead ⟨0, 0, 0⟩] ∧
    (0 = 0 ∧ genCountFrom initWState ⟨0, 0, 0⟩
        [WAction.lockedGetOrInsert ⟨0, 0, 0⟩, WAction.fastRead ⟨0, 0, 0⟩] ≤ 1) :=
  ⟨by decide,
    getOrCreateChunk_single_generation
      [WAction.lockedGetOrInsert ⟨0, 0, 0⟩, WAction.fastRead ⟨0, 0, 0⟩]
      ⟨0, 0, 0⟩ 0 0 (by decide) (by decide)⟩

/-! ## Generation-pass lemmas -/

/-- A fold of array steps leaves index `i` alone when no step writes it. -/
lemma foldl_preserve {β : Type} (step : (Nat → Nat) → β → Nat → Nat)
    (l : List β) (a : Nat → Nat) (i : Nat)
    (h : ∀ f b, b ∈ l → step f b i = f i) :
    (l.foldl step a) i = a i := by
  induction l generalizing a with
  | nil => rfl
  | cons b rest ih =>
    rw [List.foldl_cons,
      ih (step a b) (fun f b2 hb2 => h f b2 (List.mem_cons_of_mem _ hb2))]
    exact h a b (List.mem_cons_self b rest)

/-- A fold of array steps stores `v` at index `i` when a distinguished step
writes `v` there unconditionally and every other step leaves `i` alone. -/
lemma foldl_write_last {β : Type} (step : (Nat → Nat) → β → Nat → Nat)
    (l : List β) (a : Nat → Nat) (i : Nat) (b0 : β) (v : Nat)
    (hmem : b0 ∈ l) (h0 : ∀ f, step f b0 i = v)
    (hoth : ∀ f b, b ∈ l → b ≠ b0 → step f b i = f i) :
    (l.foldl step a) i = v := by
  induction l generalizing a with
  | nil => cases hmem
  | cons b rest ih =>
    rw [List.foldl_cons]
    by_cases hb : b0 ∈ rest
    · exact ih (step a b) hb
        (fun f b2 hb2 hne => hoth f b2 (List.mem_cons_of_mem _ hb2) hne)
    · have hbb : b = b0 := by
        rcases List.mem_cons.mp hmem with hcase | hcase
        · exact hcase.symm
        · exact absurd hcase hb
      rw [hbb,
        foldl_preserve step rest (step a b0) i
          (fun f b2 hb2 => hoth f b2 (List.mem_cons_of_mem _ hb2)
            (fun he => hb (he ▸ hb2)))]
      exact h0 a

lemma wrap32_small (v : Int) (h1 : -2147483648 ≤ v) (h2 : v < 2147483648) :
    wrap32 v = v := by
  unfold wrap32
  omega

lemma clampI32_range (v lo hi : Int) (h : lo ≤ hi) :
    lo ≤ clampI32 v lo hi ∧ clampI32 v lo hi ≤ hi := by
  unfold clampI32
  split_ifs <;> omega

lemma terrainHeight_range (wx wz : Int) (seed : Nat) :
    1 ≤ terrainHeight wx wz seed ∧ terrainHeight wx wz seed ≤ 30 :=
  clampI32_range _ 1 30 (by norm_num)

lemma waterRange_mem (h gy : Int) :
    gy ∈ waterRange h ↔ h + 1 ≤ gy ∧ gy ≤ seaLevel := by
  unfold waterRange seaLevel
  simp only [seaLevel, List.mem_map, List.mem_range]
  constructor
  · rintro ⟨k, hk, rfl⟩
    omega
  · rintro ⟨hlo, hhi⟩
    exact ⟨(gy - (h + 1)).toNat, by omega, by omega⟩

/-- Value of a generated voxel at local height y of a column with terrain
height h, for a chunk at vertical coordinate 0 (so global y = local y): the
water band [h+1, seaLevel] of below-sea columns, else the terrain pass
result (air above h, grass at h, dirt down to depth 3, stone below). -/
def genVoxel (h : Int) (y : Nat) : Nat :=
  if h < seaLevel ∧ h + 1 ≤ (y : Int) ∧ (y : Int) ≤ seaLevel then BlockWater
  else if (y : Int) > h then BlockAir
  else if h - (y : Int) = 0 then BlockGrass
  else if h - (y : Int) ≤ 3 then BlockDirt
  else BlockStone

lemma cast_CH_eq : ((CH : Nat) : Int) = 32 := rfl

/-- Value written by the terrain pass at its own column and height. -/
lemma terrainFold_self (h baseY : Int) (x y z : Nat)
    (hx : x < 32) (hy : y < 32) (hz : z < 32) (ty : Nat → Nat) :
    terrainFold h baseY x z ty (Idx x y z) = terrainBody h (wrap32 (baseY + y)) := by
  unfold terrainFold
  refine foldl_write_last _ _ _ _ y _ (List.mem_range.mpr hy)
    (fun f => Function.update_same _ _ _) (fun f y2 hy2 hne => ?_)
  exact Function.update_noteq
    (idx_ne x y2 z x y z hx (List.mem_range.mp hy2) hz hx hy hz
      (Or.inr (Or.inl (fun he => hne he.symm)))) _ _

/-- The terrain pass of a different column never writes the target index. -/
lemma terrainFold_other (h baseY : Int) (x z y x2 z2 : Nat)
    (hx : x < 32) (hy : y < 32) (hz : z < 32) (hx2 : x2 < 32) (hz2 : z2 < 32)
    (hne : x2 ≠ x ∨ z2 ≠ z) (ty : Nat → Nat) :
    terrainFold h baseY x2 z2 ty (Idx x y z) = ty (Idx x y z) := by
  unfold terrainFold
  refine foldl_preserve _ _ _ _ (fun f y2 hy2 => ?_)
  exact Function.update_noteq
    (idx_ne x2 y2 z2 x y z hx2 (List.mem_range.mp hy2) hz2 hx hy hz
      (hne.elim (fun hxx => Or.inl (Ne.symm hxx))
        (fun hzz => Or.inr (Or.inr (Ne.symm hzz))))) _ _

/-- The water pass writes the target voxel when the column is below sea
level, the chunk sits at vertical coordinate 0, and the local height lies in
the flooded band. -/
lemma waterFold_self_water (h : Int) (x y z : Nat)
    (hx : x < 32) (hy : y < 32) (hz : z < 32) (hh1 : 1 ≤ h)
    (hw : h < seaLevel) (hb1 : h + 1 ≤ (y : Int)) (hb2 : (y : Int) ≤ seaLevel)
    (ty : Nat → Nat) :
    waterFold h 0 x z ty (Idx x y z) = BlockWater := by
  have hsea : seaLevel = 12 := rfl
  unfold waterFold
  rw [if_pos hw]
  refine foldl_write_last _ _ _ _ ((y : Nat) : Int) _
    ((waterRange_mem h _).mpr ⟨hb1, hb2⟩) (fun f => ?_) (fun f gy hgy hne => ?_)
  · have hwrap : wrap32 ((0 : Int) + (CH : Int)) = 32 := by
      rw [cast_CH_eq]
      exact wrap32_small _ (by norm_num) (by norm_num)
    rw [if_neg (by rw [hwrap]; omega)]
    have htu : toU8 (wrap32 ((y : Int) - 0)) = y := by
      rw [wrap32_small _ (by omega) (by omega)]
      unfold toU8
      omega
    rw [htu]
    exact Function.update_same _ _ _
  · rcases (waterRange_mem h gy).mp hgy with ⟨hg1, hg2⟩
    have hwrap : wrap32 ((0 : Int) + (CH : Int)) = 32 := by
      rw [cast_CH_eq]
      exact wrap32_small _ (by norm_num) (by norm_num)
    rw [if_neg (by rw [hwrap]; omega)]
    have htu : toU8 (wrap32 (gy - 0)) = gy.toNat := by
      rw [wrap32_small _ (by omega) (by omega)]
      unfold toU8
      omega
    rw [htu]
    exact Function.update_noteq
      (idx_ne x gy.toNat z x y z hx (by omega) hz hx hy hz
        (Or.inr (Or.inl (by omega)))) _ _

/-- The water pass leaves the target voxel alone when the flooded-band
condition fails for it. -/
lemma waterFold_self_not (h : Int) (x y z : Nat)
    (hx : x < 32) (hy : y < 32) (hz : z < 32) (hh1 : 1 ≤ h)
    (hnw : ¬(h < seaLevel ∧ h + 1 ≤ (y : Int) ∧ (y : Int) ≤ seaLevel))
    (ty : Nat → Nat) :
    waterFold h 0 x z ty (Idx x y z) = ty (Idx x y z) := by
  have hsea : seaLevel = 12 := rfl
  unfold waterFold
  by_cases hw : h < seaLevel
  · rw [if_pos hw]
    refine foldl_preserve _ _ _ _ (fun f gy hgy => ?_)
    rcases (waterRange_mem h gy).mp hgy with ⟨hg1, hg2⟩
    have hwrap : wrap32 ((0 : Int) + (CH : Int)) = 32 := by
      rw [cast_CH_eq]
      exact wrap32_small _ (by norm_num) (by norm_num)
    rw [if_neg (by rw [hwrap]; omega)]
    have htu : toU8 (wrap32 (gy - 0)) = gy.toNat := by
      rw [wrap32_small _ (by omega) (by omega)]
      unfold toU8
      omega
    rw [htu]
    exact Function.update_noteq
      (idx_ne x gy.toNat z x y z hx (by omega) hz hx hy hz
        (Or.inr (Or.inl (by omega)))) _ _
  · rw [if_neg hw]

/-- The water pass of a different column never writes the target index. -/
lemma waterFold_other (h : Int) (x z y x2 z2 : Nat)
    (hx : x < 32) (hy : y < 32) (hz : z < 32) (hx2 : x2 < 32) (hz2 : z2 < 32)
    (hh1 : 1 ≤ h) (hne : x2 ≠ x ∨ z2 ≠ z) (ty : Nat → Nat) :
    waterFold h 0 x2 z2 ty (Idx x y z) = ty (Idx x y z) := by
  have hsea : seaLevel = 12 := rfl
  unfold waterFold
  by_cases hw : h < seaLevel
  · rw [if_pos hw]
    refine foldl_preserve _ _ _ _ (fun f gy hgy => ?_)
    rcases (waterRange_mem h gy).mp hgy with ⟨hg1, hg2⟩
    have hwrap : wrap32 ((0 : Int) + (CH : Int)) = 32 := by
      rw [cast_CH_eq]
      exact wrap32_small _ (by norm_num) (by norm_num)
    rw [if_neg (by rw [hwrap]; omega)]
    have htu : toU8 (wrap32 (gy - 0)) = gy.toNat := by
      rw [wrap32_small _ (by omega) (by omega)]
      unfold toU8
      omega
    rw [htu]
    exact Function.update_noteq
      (idx_ne x2 (gy.toNat) z2 x y z hx2 (by omega) hz2 hx hy hz
        (hne.elim (fun hxx => Or.inl (Ne.symm hxx))
          (fun hzz => Or.inr (Or.inr (Ne.symm hzz))))) _ _
  · rw [if_neg hw]

/-- Combined per-voxel value of both passes at the own column of a chunk
with vertical coordinate 0. -/
lemma fillColumn_self (seed : Nat) (cx cz : Int) (x y z : Nat)
    (hx : x < 32) (hy : y < 32) (hz : z < 32) (ty : Nat → Nat) :
    fillColumn seed ⟨cx, 0, cz⟩ x z ty (Idx x y z) =
      genVoxel (terrainHeight (wrap32 (cx * (CW : Int) + x))
        (wrap32 (cz * (CD : Int) + z)) seed) y := by
  have hb : wrap32 ((0 : Int) * (CH : Int)) = 0 := by
    rw [zero_mul]
    exact wrap32_small 0 (by norm_num) (by norm_num)
  have hr := terrainHeight_range (wrap32 (cx * (CW : Int) + x))
    (wrap32 (cz * (CD : Int) + z)) seed
  show waterFold _ (wrap32 ((0 : Int) * (CH : Int))) x z
      (terrainFold _ (wrap32 ((0 : Int) * (CH : Int))) x z ty) (Idx x y z) = _
  rw [hb]
  set h := terrainHeight (wrap32 (cx * (CW : Int) + x))
    (wrap32 (cz * (CD : Int) + z)) seed with hhdef
  by_cases hw : h < seaLevel ∧ h + 1 ≤ (y : Int) ∧ (y : Int) ≤ seaLevel
  · rw [waterFold_self_water h x y z hx hy hz hr.1 hw.1 hw.2.1 hw.2.2]
    unfold genVoxel
    rw [if_pos hw]
  · rw [waterFold_self_not h x y z hx hy hz hr.1 hw,
      terrainFold_self h 0 x y z hx hy hz ty]
    have h0y : wrap32 ((0 : Int) + (y : Int)) = (y : Int) := by
      rw [zero_add]
      exact wrap32_small _ (by omega) (by omega)
    rw [h0y]
    have hdep : wrap32 (h - (y : Int)) = h - (y : Int) := by
      have hsea : seaLevel = 12 := rfl
      exact wrap32_small _ (by omega) (by omega)
    unfold terrainBody genVoxel
    rw [if_neg hw]
    simp only [hdep]

/-- A different column's passes never write the target index. -/
lemma fillColumn_other (seed : Nat) (cx cz : Int) (x z y x2 z2 : Nat)
    (hx : x < 32) (hy : y < 32) (hz : z < 32) (hx2 : x2 < 32) (hz2 : z2 < 32)
    (hne : x2 ≠ x ∨ z2 ≠ z) (ty : Nat → Nat) :
    fillColumn seed ⟨cx, 0, cz⟩ x2 z2 ty (Idx x y z) = ty (Idx x y z) := by
  have hb : wrap32 ((0 : Int) * (CH : Int)) = 0 := by
    rw [zero_mul]
    exact wrap32_small 0 (by norm_num) (by norm_num)
  have hr := terrainHeight_range (wrap32 (cx * (CW : Int) + x2))
    (wrap32 (cz * (CD : Int) + z2)) seed
  show waterFold _ (wrap32 ((0 : Int) * (CH : Int))) x2 z2
      (terrainFold _ (wrap32 ((0 : Int) * (CH : Int))) x2 z2 ty) (Idx x y z) = _
  rw [hb]
  rw [waterFold_other _ x z y x2 z2 hx hy hz hx2 hz2 hr.1 hne]
  exact terrainFold_other _ 0 x z y x2 z2 hx hy hz hx2 hz2 hne ty

/-- Per-voxel characterization of GenerateChunk for a chunk at vertical
coordinate 0: the Type entry at Idx(x,y,z) is `genVoxel h y` for the
column's terrain height h. -/
lemma generateChunk_type_eq (cx cz : Int) (seed : Nat) (x y z : Nat)
    (hx : x < 32) (hy : y < 32) (hz : z < 32) :
    (GenerateChunk ⟨cx, 0, cz⟩ ⟨seed⟩).type (Idx x y z) =
      genVoxel (terrainHeight (wrap32 (cx * (CW : Int) + x))
        (wrap32 (cz * (CD : Int) + z)) seed) y := by
  show ((List.range CD).foldl
      (fun f z2 => (List.range CW).foldl
        (fun g x2 => fillColumn seed ⟨cx, 0, cz⟩ x2 z2 g) f)
      (fun _ => 0)) (Idx x y z) = _
  refine foldl_write_last _ _ _ _ z _ (List.mem_range.mpr hz)
    (fun f => ?_) (fun f z2 hz2 hne => ?_)
  · exact foldl_write_last _ _ _ _ x _ (List.mem_range.mpr hx)
      (fun g => fillColumn_self seed cx cz x y z hx hy hz g)
      (fun g x2 hx2 hne2 =>
        fillColumn_other seed cx cz x z y x2 z hx hy hz
          (List.mem_range.mp hx2) hz (Or.inl hne2) g)
  · exact foldl_preserve _ _ _ _
      (fun g x2 hx2 =>
        fillColumn_other seed cx cz x z y x2 z2 hx hy hz
          (List.mem_range.mp hx2) (List.mem_range.mp hz2) (Or.inr hne) g)

/-- C4: in a chunk generated at vertical coordinate 0 (whose y-range [0,32)
contains every clamped terrain height h in [1,30]), the voxel at the
column's height h is grass, the band [max(0,h-3), h-1] is dirt, everything
below h-3 is stone, and everything above h is air unless the water pass
overwrote it. -/
theorem generateChunk_stratification (cx cz : Int) (seed : Nat) (x y z : Nat)
    (h : Int) (hx : x < 32) (hy : y < 32) (hz : z < 32)
    (hh : h = terrainHeight (wrap32 (cx * 32 + x)) (wrap32 (cz * 32 + z)) seed) :
    ((y : Int) = h →
      (GenerateChunk ⟨cx, 0, cz⟩ ⟨seed⟩).type (Idx x y z) = BlockGrass) ∧
    (h - 3 ≤ (y : Int) → (y : Int) < h →
      (GenerateChunk ⟨cx, 0, cz⟩ ⟨seed⟩).type (Idx x y z) = BlockDirt) ∧
    ((y : Int) < h - 3 →
      (GenerateChunk ⟨cx, 0, cz⟩ ⟨seed⟩).type (Idx x y z) = BlockStone) ∧
    (h < (y : Int) →
      (GenerateChunk ⟨cx, 0, cz⟩ ⟨seed⟩).type (Idx x y z) = BlockAir ∨
      (GenerateChunk ⟨cx, 0, cz⟩ ⟨seed⟩).type (Idx x y z) = BlockWater) := by
  have he : (GenerateChunk ⟨cx, 0, cz⟩ ⟨seed⟩).type (Idx x y z) = genVoxel h y := by
    rw [hh]
    exact generateChunk_type_eq cx cz seed x y z hx hy hz
  rw [he]
  unfold genVoxel BlockAir BlockGrass BlockDirt BlockStone BlockWater seaLevel
  refine ⟨fun h1 => ?_, fun h1 h2 => ?_, fun h1 => ?_, fun h1 => ?_⟩ <;>
    split_ifs <;> omega

theorem generateChunk_stratification_witness :
    (((5 : Nat) : Int) = terrainHeight (wrap32 (0 * 32 + (0 : Nat)))
        (wrap32 (0 * 32 + (0 : Nat))) 1337 →
      (GenerateChunk ⟨0, 0, 0⟩ ⟨1337⟩).type (Idx 0 5 0) = BlockGrass) ∧
    (terrainHeight (wrap32 (0 * 32 + (0 : Nat))) (wrap32 (0 * 32 + (0 : Nat))) 1337 - 3 ≤
        ((5 : Nat) : Int) →
      ((5 : Nat) : Int) <
        terrainHeight (wrap32 (0 * 32 + (0 : Nat))) (wrap32 (0 * 32 + (0 : Nat))) 1337 →
      (GenerateChunk ⟨0, 0, 0⟩ ⟨1337⟩).type (Idx 0 5 0) = BlockDirt) ∧
    (((5 : Nat) : Int) <
        terrainHeight (wrap32 (0 * 32 + (0 : Nat))) (wrap32 (0 * 32 + (0 : Nat))) 1337 - 3 →
      (GenerateChunk ⟨0, 0, 0⟩ ⟨1337⟩).type (Idx 0 5 0) = BlockStone) ∧
    (terrainHeight (wrap32 (0 * 32 + (0 : Nat))) (wrap32 (0 * 32 + (0 : Nat))) 1337 <
        ((5 : Nat) : Int) →
      (GenerateChunk ⟨0, 0, 0⟩ ⟨1337⟩).type (Idx 0 5 0) = BlockAir ∨
      (GenerateChunk ⟨0, 0, 0⟩ ⟨1337⟩).type (Idx 0 5 0) = BlockWater) :=
  generateChunk_stratification 0 0 1337 0 5 0
    (terrainHeight (wrap32 (0 * 32 + (0 : Nat))) (wrap32 (0 * 32 + (0 : Nat))) 1337)
    (by norm_num) (by norm_num) (by norm_num) rfl

/-- C5: in a chunk generated at vertical coordinate 0, a column with terrain
height h below the fixed sea level 12 is water exactly on (h, 12] and air
above 12; a column with h at or above sea level receives no water. -/
theorem generateChunk_water_bound (cx cz : Int) (seed : Nat) (x y z : Nat)
    (h : Int) (hx : x < 32) (hy : y < 32) (hz : z < 32)
    (hh : h = terrainHeight (wrap32 (cx * 32 + x)) (wrap32 (cz * 32 + z)) seed) :
    (h < 12 → h < (y : Int) → (y : Int) ≤ 12 →
      (GenerateChunk ⟨cx, 0, cz⟩ ⟨seed⟩).type (Idx x y z) = BlockWater) ∧
    (h < 12 → 12 < (y : Int) →
      (GenerateChunk ⟨cx, 0, cz⟩ ⟨seed⟩).type (Idx x y z) = BlockAir) ∧
    (12 ≤ h →
      (GenerateChunk ⟨cx, 0, cz⟩ ⟨seed⟩).type (Idx x y z) ≠ BlockWater) := by
  have he : (GenerateChunk ⟨cx, 0, cz⟩ ⟨seed⟩).type (Idx x y z) = genVoxel h y := by
    rw [hh]
    exact generateChunk_type_eq cx cz seed x y z hx hy hz
  rw [he]
  unfold genVoxel BlockAir BlockGrass BlockDirt BlockStone BlockWater seaLevel
  refine ⟨fun h1 h2 h3 => ?_, fun h1 h2 => ?_, fun h1 => ?_⟩ <;>
    split_ifs <;> omega

theorem generateChunk_water_bound_witness :
    (terrainHeight (wrap32 (0 * 32 + (3 : Nat))) (wrap32 (0 * 32 + (4 : Nat))) 1337 < 12 →
      terrainHeight (wrap32 (0 * 32 + (3 : Nat))) (wrap32 (0 * 32 + (4 : Nat))) 1337 <
        ((9 : Nat) : Int) →
      ((9 : Nat) : Int) ≤ 12 →
      (GenerateChunk ⟨0, 0, 0⟩ ⟨1337⟩).type (Idx 3 9 4) = BlockWater) ∧
    (terrainHeight (wrap32 (0 * 32 + (3 : Nat))) (wrap32 (0 * 32 + (4 : Nat))) 1337 < 12 →
      12 < ((9 : Nat) : Int) →
      (GenerateChunk ⟨0, 0, 0⟩ ⟨1337⟩).type (Idx 3 9 4) = BlockAir) ∧
    (12 ≤ terrainHeight (wrap32 (0 * 32 + (3 : Nat))) (wrap32 (0 * 32 + (4 : Nat))) 1337 →
      (GenerateChunk ⟨0, 0, 0⟩ ⟨1337⟩).type (Idx 3 9 4) ≠ BlockWater) :=
  generateChunk_water_bound 0 0 1337 3 9 4
    (terrainHeight (wrap32 (0 * 32 + (3 : Nat))) (wrap32 (0 * 32 + (4 : Nat))) 1337)
    (by norm_num) (by norm_num) (by norm_num) rfl

/-! ## Noise range -/

/-- C8 (failing-input evaluation): the claimed range [0,1] of noise2D fails
at the negative world coordinate wx = -31 (wz = 0, seed = 0, cell = 32):
Go's truncating integer division places negative coordinates in the wrong
lattice cell, the in-cell fraction fx becomes negative (-31/32 here), the
quintic fade of a negative fraction is far below 0, and the extrapolating
lerp leaves [0,1] — the exact value here is about -10.57. This contradicts
the function's own documentation ("range [0,1]"). -/
theorem noise2D_out_of_range : noise2D (-31) 0 0 32 < 0 := by decide!

end NPCSim
